import Mathlib

set_option maxHeartbeats 1000000

/- Verification development for the ModelArena client-side UI layer
   (src/js/main.js) and its service worker.  The JavaScript widgets are
   embedded shallowly: each event handler becomes a pure state-transition
   function, and a sequence of user events is a list folded over the
   state.  Handlers that defer work to requestAnimationFrame are modelled
   in two ways: a fine-grained machine where the RAF callback is a
   separate `frame` event (used for the isAnimating analysis), and a
   run-to-quiescence machine where each handler together with its RAF
   callback is one atomic step (used for cross-widget coordination, which
   the source only guarantees between completed event turns). -/

/-- Character constant for the double quote, used by the JSON model. -/
def quoteChar : Char := Char.ofNat 34

/-- Character constant for the backslash, used by the JSON model. -/
def backslashChar : Char := Char.ofNat 92

/-- Newline character. -/
def newlineChar : Char := Char.ofNat 10

/-- Tab character. -/
def tabChar : Char := Char.ofNat 9

/-- Carriage-return character. -/
def crChar : Char := Char.ofNat 13

/-- Model of JavaScript Array.prototype.includes on an array of strings,
    as used by FavoriteButtons (favorites.includes(modelId)). -/
def includesStr : List String → String → Bool
  | [], _ => false
  | x :: xs, id => if x = id then true else includesStr xs id

/-- Model of FavoriteButtons.removeFavorite's
    favorites.filter((id) => id !== modelId): removes every occurrence. -/
def removeAll : List String → String → List String
  | [], _ => []
  | x :: xs, id => if x = id then removeAll xs id else x :: removeAll xs id

/-- Model of JavaScript Set.prototype.add on a set represented as a
    duplicate-free list (ImageLoader.loadedImages). -/
def setAdd (l : List String) (x : String) : List String :=
  if includesStr l x then l else l ++ [x]

/-- Character-list helper for the model of String.prototype.startsWith. -/
def isPrefixChars : List Char → List Char → Bool
  | [], _ => true
  | _ :: _, [] => false
  | p :: ps, c :: cs => if c = p then isPrefixChars ps cs else false

/-- Model of JavaScript s.startsWith(pre). -/
def jsStartsWith (s pre : String) : Bool := isPrefixChars pre.data s.data

/-- ASCII whitespace recognised by the model of String.prototype.trim. -/
def isTrimWs (c : Char) : Bool :=
  c = ' ' || c = tabChar || c = newlineChar || c = crChar

/-- Drop leading whitespace from a character list. -/
def dropWhileWs : List Char → List Char
  | [] => []
  | c :: cs => if isTrimWs c then dropWhileWs cs else c :: cs

/-- Model of JavaScript String.prototype.trim restricted to ASCII
    whitespace (sufficient for the inputs considered here). -/
def jsTrim (s : String) : String :=
  String.mk (dropWhileWs (dropWhileWs s.data.reverse).reverse)

/-- Model of a JavaScript JSON value as produced by JSON.parse.  Number
    tokens are kept verbatim, since no arithmetic is done on them. -/
inductive Json where
  | null : Json
  | bool : Bool → Json
  | num : String → Json
  | str : String → Json
  | arr : List Json → Json
  | obj : List (String × Json) → Json

/-- JSON whitespace. -/
def isWs (c : Char) : Bool :=
  c = ' ' || c = tabChar || c = newlineChar || c = crChar

/-- Skip leading JSON whitespace. -/
def skipWs : List Char → List Char
  | [] => []
  | c :: cs => if isWs c then skipWs cs else c :: cs

/-- Decoding of a single JSON string escape character. -/
def escDecode (e : Char) : Option Char :=
  if e = quoteChar then some quoteChar
  else if e = backslashChar then some backslashChar
  else if e = '/' then some '/'
  else if e = 'n' then some newlineChar
  else if e = 't' then some tabChar
  else if e = 'r' then some crChar
  else if e = 'b' then some (Char.ofNat 8)
  else if e = 'f' then some (Char.ofNat 12)
  else none

/-- Parse the body of a JSON string after the opening quote, returning
    the decoded characters and the remaining input. -/
def parseStrChars : List Char → Option (List Char × List Char)
  | [] => none
  | c :: cs =>
    if c = quoteChar then some ([], cs)
    else if c = backslashChar then
      match cs with
      | [] => none
      | e :: cs2 =>
        match escDecode e with
        | none => none
        | some d =>
          match parseStrChars cs2 with
          | some (s, rest) => some (d :: s, rest)
          | none => none
    else
      match parseStrChars cs with
      | some (s, rest) => some (c :: s, rest)
      | none => none

/-- Expect a fixed sequence of characters. -/
def expectChars : List Char → List Char → Option (List Char)
  | [], cs => some cs
  | _ :: _, [] => none
  | p :: ps, c :: cs => if c = p then expectChars ps cs else none

/-- Split a character list at the first non-digit. -/
def spanDigits : List Char → List Char × List Char
  | [] => ([], [])
  | c :: cs =>
    if c.isDigit then
      let r := spanDigits cs
      (c :: r.1, r.2)
    else ([], c :: cs)

/-- Parse a JSON number token (optional minus, digits, optional decimal
    part; exponents are outside the model's scope). -/
def parseNumTok (cs : List Char) : Option (List Char × List Char) :=
  let sr : List Char × List Char :=
    match cs with
    | c :: r => if c = '-' then ([c], r) else ([], c :: r)
    | [] => ([], [])
  match spanDigits sr.2 with
  | ([], _) => none
  | (ds, cs2) =>
    let fr : List Char × List Char :=
      match cs2 with
      | c :: r =>
        if c = '.' then
          match spanDigits r with
          | ([], _) => ([], cs2)
          | (fs, r2) => (c :: fs, r2)
        else ([], cs2)
      | [] => ([], cs2)
    some (sr.1 ++ ds ++ fr.1, fr.2)

mutual

/-- Fuel-indexed model of JSON.parse: parse one JSON value. -/
def parseVal : Nat → List Char → Option (Json × List Char)
  | 0, _ => none
  | Nat.succ f, cs =>
    match skipWs cs with
    | [] => none
    | c :: rest =>
      if c = quoteChar then
        match parseStrChars rest with
        | some (s, r) => some (Json.str (String.mk s), r)
        | none => none
      else if c = '[' then
        match skipWs rest with
        | [] => none
        | d :: r2 =>
          if d = ']' then some (Json.arr [], r2)
          else
            match parseItems f (d :: r2) with
            | some (xs, r) => some (Json.arr xs, r)
            | none => none
      else if c = '{' then
        match skipWs rest with
        | [] => none
        | d :: r2 =>
          if d = '}' then some (Json.obj [], r2)
          else
            match parseMembers f (d :: r2) with
            | some (kvs, r) => some (Json.obj kvs, r)
            | none => none
      else if c = 'n' then
        match expectChars ['u', 'l', 'l'] rest with
        | some r => some (Json.null, r)
        | none => none
      else if c = 't' then
        match expectChars ['r', 'u', 'e'] rest with
        | some r => some (Json.bool true, r)
        | none => none
      else if c = 'f' then
        match expectChars ['a', 'l', 's', 'e'] rest with
        | some r => some (Json.bool false, r)
        | none => none
      else if c = '-' || c.isDigit then
        match parseNumTok (c :: rest) with
        | some (tok, r) => some (Json.num (String.mk tok), r)
        | none => none
      else none

/-- Parse the comma-separated items of a non-empty JSON array, including
    the closing bracket. -/
def parseItems : Nat → List Char → Option (List Json × List Char)
  | 0, _ => none
  | Nat.succ f, cs =>
    match parseVal f cs with
    | none => none
    | some (j, rest) =>
      match skipWs rest with
      | [] => none
      | d :: r =>
        if d = ',' then
          match parseItems f r with
          | some (xs, r2) => some (j :: xs, r2)
          | none => none
        else if d = ']' then some ([j], r)
        else none

/-- Parse the members of a non-empty JSON object, including the closing
    brace. -/
def parseMembers : Nat → List Char → Option (List (String × Json) × List Char)
  | 0, _ => none
  | Nat.succ f, cs =>
    match skipWs cs with
    | [] => none
    | c :: rest =>
      if c = quoteChar then
        match parseStrChars rest with
        | none => none
        | some (k, r1) =>
          match skipWs r1 with
          | [] => none
          | d :: r2 =>
            if d = ':' then
              match parseVal f r2 with
              | none => none
              | some (v, r3) =>
                match skipWs r3 with
                | [] => none
                | e :: r4 =>
                  if e = ',' then
                    match parseMembers f r4 with
                    | some (kvs, r5) => some ((String.mk k, v) :: kvs, r5)
                    | none => none
                  else if e = '}' then some ([(String.mk k, v)], r4)
                  else none
            else none
      else none

end

/-- Model of JSON.parse: none models a thrown SyntaxError. -/
def jsonParse (s : String) : Option Json :=
  match parseVal (s.data.length + 1) s.data with
  | some (j, rest) => if skipWs rest = [] then some j else none
  | none => none

/-- Escaping of one character inside a JSON string literal, as done by
    JSON.stringify. -/
def escChar (c : Char) : List Char :=
  if c = quoteChar then [backslashChar, quoteChar]
  else if c = backslashChar then [backslashChar, backslashChar]
  else if c = newlineChar then [backslashChar, 'n']
  else if c = tabChar then [backslashChar, 't']
  else if c = crChar then [backslashChar, 'r']
  else [c]

/-- Escape a whole character list. -/
def encodeChars : List Char → List Char
  | [] => []
  | c :: cs => escChar c ++ encodeChars cs

/-- JSON.stringify of a single string, as a character list. -/
def quoteStr (s : List Char) : List Char :=
  quoteChar :: encodeChars s ++ [quoteChar]

/-- Comma-join of already-serialized items. -/
def joinItems : List (List Char) → List Char
  | [] => []
  | [x] => x
  | x :: y :: rest => x ++ ',' :: joinItems (y :: rest)

/-- Model of JSON.stringify on an array of strings, the only shape the
    favorites store ever writes. -/
def stringifyStrList (l : List String) : String :=
  String.mk ('[' :: joinItems (l.map (fun s => quoteStr s.data)) ++ [']'])

/-- Model of localStorage.getItem("modelArenaFavorites") || "[]".  A
    missing key yields null and the empty string is falsy, so both fall
    back to "[]". -/
def getItemOr : Option String → String
  | none => "[]"
  | some s => if s = "" then "[]" else s

/-- FavoriteButtons.loadFavorites: JSON.parse of the stored value inside
    try/catch; a parse failure is caught and replaced by []. -/
def loadFavorites (storage : Option String) : Json :=
  (jsonParse (getItemOr storage)).getD (Json.arr [])

/-- Decode a list of JSON values that are all strings. -/
def strListOf : List Json → Option (List String)
  | [] => some []
  | Json.str s :: rest => (strListOf rest).map (fun l => s :: l)
  | _ => none

/-- Decode a parsed favorites value as the string array it denotes. -/
def asStrList : Json → Option (List String)
  | Json.arr xs => strListOf xs
  | _ => none

/-- State of the favorites component: the in-memory array and the
    persisted localStorage value under "modelArenaFavorites". -/
structure FavSys where
  mem : List String
  storage : Option String
  deriving DecidableEq

/-- FavoriteButtons.toggleFavorite followed by the saveFavorites call it
    performs on either branch: remove every occurrence if present,
    otherwise push, then persist JSON.stringify of the array. -/
def toggleFavorite (s : FavSys) (id : String) : FavSys :=
  if includesStr s.mem id then
    let l := removeAll s.mem id
    ⟨l, some (stringifyStrList l)⟩
  else
    let l := s.mem ++ [id]
    ⟨l, some (stringifyStrList l)⟩

/-- Favorites lifecycle events: a page load (the constructor re-reads
    storage via loadFavorites) or a toggle of one identifier. -/
inductive FavEv where
  | construct : FavEv
  | toggle : String → FavEv

/-- One favorites lifecycle step; none marks a state outside the model
    (a construction whose loaded value is not a string array). -/
def favStep (s : FavSys) : FavEv → Option FavSys
  | FavEv.construct =>
    (asStrList (loadFavorites s.storage)).map (fun l => (⟨l, s.storage⟩ : FavSys))
  | FavEv.toggle id => some (toggleFavorite s id)

/-- Pristine browser state: nothing stored yet. -/
def favInit : FavSys := ⟨[], none⟩

/-- Run a sequence of favorites lifecycle events. -/
def favRun : FavSys → List FavEv → Option FavSys
  | s, [] => some s
  | s, e :: es =>
    match favStep s e with
    | some s2 => favRun s2 es
    | none => none

/-- MobileMenu flags: isOpen and the isAnimating lock that is set by
    open/close and cleared by their requestAnimationFrame callback. -/
structure MenuSt where
  isOpen : Bool
  isAnimating : Bool

/-- MobileMenu.open, synchronous part: no-op when already open or
    animating, otherwise sets isAnimating and isOpen (the RAF callback
    clears isAnimating later). -/
def menuOpenStep (s : MenuSt) : MenuSt :=
  if s.isOpen || s.isAnimating then s else ⟨true, true⟩

/-- MobileMenu.close, synchronous part. -/
def menuCloseStep (s : MenuSt) : MenuSt :=
  if !s.isOpen || s.isAnimating then s else ⟨false, true⟩

/-- MobileMenu.toggle: guarded by isAnimating, then dispatches on
    isOpen. -/
def menuToggleStep (s : MenuSt) : MenuSt :=
  if s.isAnimating then s
  else if s.isOpen then menuCloseStep s
  else menuOpenStep s

/-- The pending requestAnimationFrame callback runs: isAnimating is
    cleared (the DOM class changes it also performs are not state). -/
def menuFrame (s : MenuSt) : MenuSt := ⟨s.isOpen, false⟩

/-- Events of the fine-grained mobile-menu machine. -/
inductive MenuEv where
  | toggle : MenuEv
  | frame : MenuEv

/-- One fine-grained mobile-menu step. -/
def menuStep (s : MenuSt) : MenuEv → MenuSt
  | MenuEv.toggle => menuToggleStep s
  | MenuEv.frame => menuFrame s

/-- Run a sequence of mobile-menu events. -/
def menuRun : MenuSt → List MenuEv → MenuSt
  | s, [] => s
  | s, e :: es => menuRun (menuStep s e) es

/-- Number of effective toggles in a sequence: a toggle issued while
    isAnimating is true does not count. -/
def effToggles : MenuSt → List MenuEv → Nat
  | _, [] => 0
  | s, MenuEv.toggle :: es =>
    (if s.isAnimating then 0 else 1) + effToggles (menuToggleStep s) es
  | s, MenuEv.frame :: es => effToggles (menuFrame s) es

/-- Joint state of the mutually exclusive pair MobileMenu / MobileSearch
    (MobileSearch has no animation lock in the source). -/
structure MSState where
  menuOpen : Bool
  menuAnim : Bool
  searchOpen : Bool

/-- MobileSearch.close run to completion. -/
def searchCloseF (s : MSState) : MSState :=
  if !s.searchOpen then s else { s with searchOpen := false }

/-- MobileMenu.close run to completion, including the RAF callback that
    clears isAnimating. -/
def menuCloseF (s : MSState) : MSState :=
  if !s.menuOpen || s.menuAnim then s
  else { s with menuOpen := false, menuAnim := false }

/-- MobileMenu.open run to completion: the guard, the flag updates, and
    the RAF callback that closes the mobile search and clears
    isAnimating. -/
def menuOpenF (s : MSState) : MSState :=
  if s.menuOpen || s.menuAnim then s
  else
    let s1 : MSState := { s with menuOpen := true, menuAnim := true }
    let s2 := searchCloseF s1
    { s2 with menuAnim := false }

/-- MobileSearch.open run to completion: the guard, the flag update, and
    the RAF callback that closes the mobile menu (itself run to
    completion). -/
def searchOpenF (s : MSState) : MSState :=
  if s.searchOpen then s
  else menuCloseF { s with searchOpen := true }

/-- MobileMenu.toggle run to completion. -/
def menuToggleF (s : MSState) : MSState :=
  if s.menuAnim then s
  else if s.menuOpen then menuCloseF s
  else menuOpenF s

/-- MobileSearch.toggle run to completion. -/
def searchToggleF (s : MSState) : MSState :=
  if s.searchOpen then searchCloseF s else searchOpenF s

/-- User-visible operations on the menu/search pair. -/
inductive MSOp where
  | mOpen : MSOp
  | mClose : MSOp
  | mToggle : MSOp
  | sOpen : MSOp
  | sClose : MSOp
  | sToggle : MSOp

/-- Apply one operation. -/
def msApply (s : MSState) : MSOp → MSState
  | MSOp.mOpen => menuOpenF s
  | MSOp.mClose => menuCloseF s
  | MSOp.mToggle => menuToggleF s
  | MSOp.sOpen => searchOpenF s
  | MSOp.sClose => searchCloseF s
  | MSOp.sToggle => searchToggleF s

/-- Both widgets start closed at page load. -/
def msInit : MSState := ⟨false, false, false⟩

/-- Run a sequence of operations. -/
def msRun : MSState → List MSOp → MSState
  | s, [] => s
  | s, op :: ops => msRun (msApply s op) ops

/-- States reachable from page load by completed handler executions. -/
def MSReachable (s : MSState) : Prop := ∃ ops, msRun msInit ops = s

/-- Open/closed flags of all exclusive widgets, for the document-level
    Escape handler. -/
structure AppState where
  menuOpen : Bool
  menuAnim : Bool
  searchOpen : Bool
  loginOpen : Bool
  signupOpen : Bool
  addTagOpen : Bool
  deriving DecidableEq

/-- MobileMenu.close on the app state (run to completion). -/
def appMenuClose (s : AppState) : AppState :=
  if !s.menuOpen || s.menuAnim then s
  else { s with menuOpen := false, menuAnim := false }

/-- MobileSearch.close on the app state. -/
def appSearchClose (s : AppState) : AppState :=
  if !s.searchOpen then s else { s with searchOpen := false }

/-- AddTagModal.close: guarded by its isOpen flag. -/
def appAddTagClose (s : AppState) : AppState :=
  if !s.addTagOpen then s else { s with addTagOpen := false }

/-- AuthModals.closeLogin: unconditional hide. -/
def appCloseLogin (s : AppState) : AppState := { s with loginOpen := false }

/-- AuthModals.closeSignup: unconditional hide. -/
def appCloseSignup (s : AppState) : AppState := { s with signupOpen := false }

/-- AuthModals.closeAll: closeLogin, closeSignup, then the add-tag
    modal's close. -/
def appCloseAll (s : AppState) : AppState :=
  appAddTagClose (appCloseSignup (appCloseLogin s))

/-- Document-level Escape handling: AddTagModal's own keydown listener
    (registered first) closes it; then ModelArena's listener calls close
    on every component that has one (mobileMenu, mobileSearch,
    addTagModal; AuthModals has no close method and SearchForm,
    FavoriteButtons and ImageLoader have none either) and finally
    authModals.closeAll(). -/
def handleEscape (s : AppState) : AppState :=
  let s0 := appAddTagClose s
  let s1 := appMenuClose s0
  let s2 := appSearchClose s1
  let s3 := appAddTagClose s2
  appCloseAll s3

/-- Observable effect of SearchForm.handleSearch. -/
inductive SearchEffect where
  | showResults : String → SearchEffect

/-- SearchForm.handleSearch: trims the input value and calls
    showSearchResults only when the trimmed query is non-empty. -/
def handleSearch (input : String) : List SearchEffect :=
  let query := jsTrim input
  if query = "" then [] else [SearchEffect.showResults query]

/-- AddTagModal.handleConfirm: trims the tag input; an empty result is
    rejected; otherwise the confirmed tag keeps a leading "#" or has one
    prepended. -/
def handleConfirm (input : String) : Option String :=
  let tagValue := jsTrim input
  if tagValue = "" then none
  else if jsStartsWith tagValue "#" then some tagValue
  else some ("#" ++ tagValue)

/-- An img element handle: its src attribute and optional data-src. -/
structure ImgElem where
  src : String
  datasetSrc : Option String

/-- The URL actually fetched: img.dataset.src || img.src (the empty
    string is falsy in JavaScript). -/
def resolvedSrc (img : ImgElem) : String :=
  match img.datasetSrc with
  | some d => if d = "" then img.src else d
  | none => img.src

/-- The fixed SVG placeholder substituted on load failure. -/
def placeholderDataUri : String :=
  "data:image/svg+xml;base64,PHN2ZyB3aWR0aD0iMzAwIiBoZWlnaHQ9IjQwMCIgdmlld0JveD0iMCAwIDMwMCA0MDAiIGZpbGw9Im5vbmUiIHhtbG5zPSJodHRwOi8vd3d3LnczLm9yZy8yMDAwL3N2ZyI+CjxyZWN0IHdpZHRoPSIzMDAiIGhlaWdodD0iNDAwIiBmaWxsPSIjRjVGNUY1Ii8+CjxyZWN0IHg9IjEyNSIgeT0iMTc1IiB3aWR0aD0iNTAiIGhlaWdodD0iNTAiIGZpbGw9IiNFMEUwRTAiLz4KPC9zdmc+"

/-- ImageLoader state for one observed handle: the resolved-set, the
    handle, the queue of in-flight temp-image fetches, and the log of
    URLs handed to the network. -/
structure LoaderSt where
  loadedImages : List String
  img : ImgElem
  pending : List String
  fetchLog : List String

/-- ImageLoader events: a loadImage call on the handle, or completion of
    the oldest in-flight fetch (success or error). -/
inductive LoadEv where
  | call : LoadEv
  | completeOk : LoadEv
  | completeErr : LoadEv

/-- One ImageLoader step.  loadImage returns early when img.src is in
    loadedImages; otherwise assigning tempImg.src starts a network
    fetch of the resolved URL.  tempImg.onload assigns img.src and only
    then records it in loadedImages; tempImg.onerror substitutes the
    placeholder and records nothing. -/
def loadStep (s : LoaderSt) : LoadEv → LoaderSt
  | LoadEv.call =>
    if includesStr s.loadedImages s.img.src then s
    else
      { s with
        pending := s.pending ++ [resolvedSrc s.img],
        fetchLog := s.fetchLog ++ [resolvedSrc s.img] }
  | LoadEv.completeOk =>
    match s.pending with
    | [] => s
    | u :: rest =>
      { loadedImages := setAdd s.loadedImages u,
        img := { s.img with src := u },
        pending := rest,
        fetchLog := s.fetchLog }
  | LoadEv.completeErr =>
    match s.pending with
    | [] => s
    | _ :: rest =>
      { s with
        img := { s.img with src := placeholderDataUri },
        pending := rest }

/-- Run a sequence of ImageLoader events. -/
def loadRun : LoaderSt → List LoadEv → LoaderSt
  | s, [] => s
  | s, e :: es => loadRun (loadStep s e) es

/-- A cached or network response in the service-worker model. -/
structure SwResponse where
  status : Nat
  body : String
  deriving DecidableEq

/-- A fetch-event request: method, absolute URL, and destination
    ("document" for navigations). -/
structure SwRequest where
  method : String
  url : String
  destination : String

/-- Cache lookup keyed by URL, as caches.match. -/
def cacheMatch : List (String × SwResponse) → String → Option SwResponse
  | [], _ => none
  | e :: rest, url => if e.1 = url then some e.2 else cacheMatch rest url

/-- Outcome of the network for this request. -/
inductive NetOutcome where
  | ok : SwResponse → NetOutcome
  | failed : NetOutcome

/-- Result of the fetch listener: the response given to respondWith
    (none when the event is not intercepted or no response is produced),
    whether the network was consulted, and the updated cache. -/
structure FetchResult where
  response : Option SwResponse
  fetched : Bool
  cache : List (String × SwResponse)

/-- The service worker's fetch listener: skip non-GET and cross-origin
    requests; answer from cache when possible; otherwise fetch, caching
    successful (status 200) responses; on network failure answer
    navigation requests with the cached /index.html shell. -/
def handleFetch (origin : String) (cache : List (String × SwResponse))
    (req : SwRequest) (net : NetOutcome) : FetchResult :=
  if req.method ≠ "GET" then ⟨none, false, cache⟩
  else if !jsStartsWith req.url origin then ⟨none, false, cache⟩
  else
    match cacheMatch cache req.url with
    | some r => ⟨some r, false, cache⟩
    | none =>
      match net with
      | NetOutcome.ok resp =>
        if resp.status = 200 then ⟨some resp, true, cache ++ [(req.url, resp)]⟩
        else ⟨some resp, true, cache⟩
      | NetOutcome.failed =>
        if req.destination = "document" then
          ⟨cacheMatch cache "/index.html", true, cache⟩
        else ⟨none, true, cache⟩

/-- Invariant of the menu/search pair at quiescence: no animation is in
    flight and the widgets are never both open. -/
abbrev MSInv (s : MSState) : Prop :=
  s.menuAnim = false ∧ ¬(s.menuOpen = true ∧ s.searchOpen = true)

/-- Invariant of the favorites system: the in-memory array is
    duplicate-free and the persisted value, when present, is the
    serialization of a duplicate-free array. -/
def FavInv (s : FavSys) : Prop :=
  s.mem.Nodup ∧
    (s.storage = none ∨ ∃ l, l.Nodup ∧ s.storage = some (stringifyStrList l))

theorem strMkData (s : String) : String.mk s.data = s := by
  cases s
  rfl

theorem strDataAppend (s t : String) : (s ++ t).data = s.data ++ t.data := by
  cases s
  cases t
  rfl

theorem strMkConsNeEmpty (c : Char) (cs : List Char) : String.mk (c :: cs) ≠ "" := by
  intro h
  have h2 : (String.mk (c :: cs)).data = ("" : String).data := by rw [h]
  simp at h2

theorem includesStr_append_self (l : List String) (x : String) :
    includesStr (l ++ [x]) x = true := by
  induction l with
  | nil => simp [includesStr]
  | cons y ys ih =>
    by_cases h : y = x <;> simp [includesStr, h, ih]

theorem includesStr_setAdd_self (l : List String) (x : String) :
    includesStr (setAdd l x) x = true := by
  unfold setAdd
  by_cases h : includesStr l x = true
  · simp [h]
  · simp [eq_false_of_ne_true h, includesStr_append_self]

theorem includesStr_removeAll_self (l : List String) (id : String) :
    includesStr (removeAll l id) id = false := by
  induction l with
  | nil => simp [removeAll, includesStr]
  | cons y ys ih =>
    by_cases h : y = id <;> simp [removeAll, includesStr, h, ih]

theorem removeAll_of_not_includes (l : List String) (id : String)
    (h : includesStr l id = false) : removeAll l id = l := by
  induction l with
  | nil => rfl
  | cons y ys ih =>
    by_cases hy : y = id
    · simp [includesStr, hy] at h
    · simp [includesStr, hy] at h
      simp [removeAll, hy, ih h]

theorem removeAll_append (a b : List String) (id : String) :
    removeAll (a ++ b) id = removeAll a id ++ removeAll b id := by
  induction a with
  | nil => rfl
  | cons y ys ih =>
    by_cases hy : y = id <;> simp [removeAll, hy, ih]

theorem not_mem_of_includes_false (l : List String) (id : String)
    (h : includesStr l id = false) : id ∉ l := by
  induction l with
  | nil => simp
  | cons y ys ih =>
    by_cases hy : y = id
    · simp [includesStr, hy] at h
    · simp [includesStr, hy] at h
      simp [ih h]
      intro hc
      exact hy hc.symm

theorem mem_of_mem_removeAll (l : List String) (id x : String)
    (h : x ∈ removeAll l id) : x ∈ l := by
  induction l with
  | nil => simp [removeAll] at h
  | cons y ys ih =>
    by_cases hy : y = id
    · simp [removeAll, hy] at h
      exact List.mem_cons_of_mem y (ih h)
    · simp [removeAll, hy] at h
      rcases h with h | h
      · simp [h]
      · exact List.mem_cons_of_mem y (ih h)

theorem nodup_removeAll (l : List String) (id : String) (h : l.Nodup) :
    (removeAll l id).Nodup := by
  induction l with
  | nil => simp [removeAll]
  | cons y ys ih =>
    rw [List.nodup_cons] at h
    by_cases hy : y = id
    · simp [removeAll, hy]
      exact ih h.2
    · simp [removeAll, hy, List.nodup_cons]
      exact ⟨fun hc => h.1 (mem_of_mem_removeAll ys id y hc), ih h.2⟩

theorem nodup_append_singleton (l : List String) (id : String)
    (h : includesStr l id = false) (hn : l.Nodup) : (l ++ [id]).Nodup := by
  simp [List.nodup_append]
  exact ⟨hn, not_mem_of_includes_false l id h⟩

theorem decide_succ_mod_two (n : Nat) :
    decide ((1 + n) % 2 = 1) = !decide (n % 2 = 1) := by
  rcases Nat.mod_two_eq_zero_or_one n with h | h <;> simp [Nat.add_mod, h]

theorem bne_flip (a d : Bool) : ((!a) != d) = (a != !d) := by
  cases a <;> cases d <;> rfl

theorem menuRun_parity (es : List MenuEv) : ∀ s : MenuSt,
    (menuRun s es).isOpen = (s.isOpen != decide (effToggles s es % 2 = 1)) := by
  induction es with
  | nil => intro s; simp [menuRun, effToggles]
  | cons e es ih =>
    intro s
    cases e with
    | frame =>
      have h := ih (menuFrame s)
      simp [menuRun, menuStep, effToggles, menuFrame] at h ⊢
      exact h
    | toggle =>
      by_cases ha : s.isAnimating = true
      · have hstep : menuToggleStep s = s := by simp [menuToggleStep, ha]
        have h := ih s
        simp [menuRun, menuStep, effToggles, hstep, ha] at h ⊢
        exact h
      · have ha2 : s.isAnimating = false := by
          cases hb : s.isAnimating
          · rfl
          · exact absurd hb ha
        have hflip : (menuToggleStep s).isOpen = !s.isOpen := by
          cases ho : s.isOpen <;>
            simp [menuToggleStep, menuOpenStep, menuCloseStep, ha2, ho]
        have h := ih (menuToggleStep s)
        rw [hflip] at h
        simp only [menuRun, menuStep, effToggles, ha2, Bool.false_eq_true,
          if_false]
        rw [h, decide_succ_mod_two, bne_flip]

/-- C1: for every sequence of toggle events on the mobile menu, starting
    closed, the isOpen flag equals the parity of the number of effective
    toggles, where a toggle issued while isAnimating is true is not
    effective and leaves the state unchanged. -/
theorem c1_menu_toggle_parity :
    (∀ es : List MenuEv,
        (menuRun ⟨false, false⟩ es).isOpen
          = decide (effToggles ⟨false, false⟩ es % 2 = 1))
    ∧ (∀ s : MenuSt, s.isAnimating = true → menuToggleStep s = s) := by
  constructor
  · intro es
    have h := menuRun_parity es ⟨false, false⟩
    simpa using h
  · intro s h
    simp [menuToggleStep, h]

/-- C1 witness: a concrete toggle sequence, and a concrete ineffective
    toggle during animation. -/
theorem c1_menu_toggle_parity_witness :
    ((menuRun ⟨false, false⟩ [MenuEv.toggle, MenuEv.frame, MenuEv.toggle]).isOpen
        = decide (effToggles ⟨false, false⟩
            [MenuEv.toggle, MenuEv.frame, MenuEv.toggle] % 2 = 1))
    ∧ menuToggleStep ⟨true, true⟩ = ⟨true, true⟩ :=
  ⟨c1_menu_toggle_parity.1 [MenuEv.toggle, MenuEv.frame, MenuEv.toggle],
   c1_menu_toggle_parity.2 ⟨true, true⟩ rfl⟩

/-- C7: submitting the search form makes no results-display call when
    the trimmed input is empty, and otherwise hands exactly the trimmed
    query to the results-display step. -/
theorem c7_search_submit (input : String) :
    (jsTrim input = "" → handleSearch input = [])
    ∧ (jsTrim input ≠ "" →
        handleSearch input = [SearchEffect.showResults (jsTrim input)]) := by
  constructor
  · intro h
    simp [handleSearch, h]
  · intro h
    simp [handleSearch, h]

/-- C7 witness: whitespace-only input produces no results-display call,
    and a real query is passed trimmed. -/
theorem c7_search_submit_witness :
    handleSearch "  " = []
    ∧ handleSearch " llama " = [SearchEffect.showResults "llama"] :=
  ⟨(c7_search_submit "  ").1 (by decide),
   by
    have h := (c7_search_submit " llama ").2 (by decide)
    rw [h]
    rfl⟩

theorem jsStartsWith_hash_append (t : String) :
    jsStartsWith ("#" ++ t) "#" = true := by
  have hd : ("#" ++ t).data = '#' :: t.data := by
    rw [strDataAppend]
    rfl
  simp [jsStartsWith, hd, isPrefixChars]

/-- C10: the add-tag confirm accepts a tag exactly when the trimmed
    input is non-empty; the confirmed tag is the trimmed value if it
    already starts with "#", otherwise "#" is prepended, so every
    confirmed tag starts with "#". -/
theorem c10_add_tag_confirm (input : String) :
    (jsTrim input = "" → handleConfirm input = none)
    ∧ (jsTrim input ≠ "" →
        handleConfirm input
          = some (if jsStartsWith (jsTrim input) "#" then jsTrim input
              else "#" ++ jsTrim input))
    ∧ (∀ t, handleConfirm input = some t → jsStartsWith t "#" = true) := by
  refine ⟨?_, ?_, ?_⟩
  · intro h
    simp [handleConfirm, h]
  · intro h
    by_cases hs : jsStartsWith (jsTrim input) "#" = true <;>
      simp [handleConfirm, h, hs]
  · intro t ht
    by_cases h : jsTrim input = ""
    · simp [handleConfirm, h] at ht
    · by_cases hs : jsStartsWith (jsTrim input) "#" = true
      · simp [handleConfirm, h, hs] at ht
        rw [← ht]
        exact hs
      · simp [handleConfirm, h, hs] at ht
        rw [← ht]
        exact jsStartsWith_hash_append (jsTrim input)

/-- C10 witness: empty-after-trim input is rejected; a plain tag gets a
    "#" prepended; a tag already starting with "#" is kept. -/
theorem c10_add_tag_confirm_witness :
    handleConfirm " " = none
    ∧ handleConfirm " ml " = some "#ml"
    ∧ handleConfirm "#ml" = some "#ml" :=
  ⟨(c10_add_tag_confirm " ").1 (by decide),
   by
    have h := (c10_add_tag_confirm " ml ").2.1 (by decide)
    rw [h]
    rfl,
   by
    have h := (c10_add_tag_confirm "#ml").2.1 (by decide)
    rw [h]
    rfl⟩

/-- C8: from any quiescent state (no menu animation in flight), a
    document-level Escape key press closes every exclusive widget:
    mobile menu, mobile search, login modal, signup modal and add-tag
    modal all end closed. -/
theorem c8_escape_closes_all (m a s l g t : Bool) (h : a = false) :
    handleEscape ⟨m, a, s, l, g, t⟩ = ⟨false, false, false, false, false, false⟩ := by
  subst h
  revert m s l g t
  decide

/-- C8 witness: Escape from the state with every widget open. -/
theorem c8_escape_closes_all_witness :
    handleEscape ⟨true, false, true, true, true, true⟩
      = ⟨false, false, false, false, false, false⟩ :=
  c8_escape_closes_all true false true true true true rfl

/-- C9: for a same-origin GET request, the service worker answers from
    the cache without consulting the network when a cached response
    exists; on a cache miss it consults the network; and when the
    network fails on a navigation request it answers with the cached
    /index.html shell. -/
theorem c9_sw_fetch (origin : String) (cache : List (String × SwResponse))
    (req : SwRequest) (net : NetOutcome) (shell : SwResponse)
    (hm : req.method = "GET") (ho : jsStartsWith req.url origin = true) :
    (∀ r, cacheMatch cache req.url = some r →
        handleFetch origin cache req net = ⟨some r, false, cache⟩)
    ∧ (cacheMatch cache req.url = none →
        (handleFetch origin cache req net).fetched = true)
    ∧ (cacheMatch cache req.url = none → net = NetOutcome.failed →
        req.destination = "document" →
        cacheMatch cache "/index.html" = some shell →
        (handleFetch origin cache req net).response = some shell) := by
  refine ⟨?_, ?_, ?_⟩
  · intro r hr
    simp [handleFetch, hm, ho, hr]
  · intro hnone
    cases net with
    | ok resp =>
      by_cases h200 : resp.status = 200 <;>
        simp [handleFetch, hm, ho, hnone, h200]
    | failed =>
      by_cases hd : req.destination = "document" <;>
        simp [handleFetch, hm, ho, hnone, hd]
  · intro hnone hnet hd hshell
    subst hnet
    simp [handleFetch, hm, ho, hnone, hd, hshell]

/-- C9 witness: a navigation request that misses the cache while the
    network is down receives the cached shell page. -/
theorem c9_sw_fetch_witness :
    (handleFetch "https://site" [("/index.html", ⟨200, "shell"⟩)]
        ⟨"GET", "https://site/models", "document"⟩ NetOutcome.failed).response
      = some ⟨200, "shell"⟩ :=
  (c9_sw_fetch "https://site" [("/index.html", ⟨200, "shell"⟩)]
      ⟨"GET", "https://site/models", "document"⟩ NetOutcome.failed ⟨200, "shell"⟩
      rfl (by decide)).2.2 (by decide) rfl rfl (by decide)

theorem msApply_inv (s : MSState) (h : MSInv s) (op : MSOp) :
    MSInv (msApply s op) := by
  obtain ⟨mo, ma, so⟩ := s
  obtain ⟨h1, h2⟩ := h
  simp only at h1
  subst h1
  cases mo
  · cases so <;> cases op <;> decide
  · cases so
    · cases op <;> decide
    · exact absurd ⟨rfl, rfl⟩ h2

theorem msRun_inv (ops : List MSOp) : ∀ s : MSState, MSInv s → MSInv (msRun s ops) := by
  induction ops with
  | nil => intro s h; exact h
  | cons op ops ih =>
    intro s h
    exact ih (msApply s op) (msApply_inv s h op)

theorem msReachable_inv (s : MSState) (h : MSReachable s) : MSInv s := by
  obtain ⟨ops, hops⟩ := h
  rw [← hops]
  exact msRun_inv ops msInit (by constructor <;> simp [msInit])

/-- C4: in every reachable quiescent state, completing MobileMenu.open
    while the search is open leaves the menu open and the search closed,
    completing MobileSearch.open while the menu is open leaves the
    search open and the menu closed, and after either completed open at
    most one of the two exclusive widgets is open. -/
theorem c4_mutual_exclusion (s : MSState) (h : MSReachable s) :
    (s.searchOpen = true →
        (menuOpenF s).menuOpen = true ∧ (menuOpenF s).searchOpen = false)
    ∧ (s.menuOpen = true →
        (searchOpenF s).searchOpen = true ∧ (searchOpenF s).menuOpen = false)
    ∧ ((menuOpenF s).menuOpen = true → (menuOpenF s).searchOpen = false)
    ∧ ((searchOpenF s).searchOpen = true → (searchOpenF s).menuOpen = false) := by
  have hinv := msReachable_inv s h
  obtain ⟨mo, ma, so⟩ := s
  obtain ⟨h1, h2⟩ := hinv
  simp only at h1
  subst h1
  cases mo
  · cases so <;> decide
  · cases so
    · decide
    · exact absurd ⟨rfl, rfl⟩ h2

/-- C4 witness: with the search open (reachable by one search toggle),
    a completed menu open closes the search and opens the menu. -/
theorem c4_mutual_exclusion_witness :
    (menuOpenF ⟨false, false, true⟩).menuOpen = true
    ∧ (menuOpenF ⟨false, false, true⟩).searchOpen = false :=
  (c4_mutual_exclusion ⟨false, false, true⟩ ⟨[MSOp.sOpen], rfl⟩).1 rfl

/-- C3 counterexample: a handle whose resolved URL is its data-src.  The
    first loadImage call fetches the resolved URL; the fetch fails, the
    placeholder is substituted and nothing is recorded in the
    resolved-set, so a second loadImage call fetches the very same
    resolved URL again: two network fetches for one resolved URL, and
    the second call is not a no-op. -/
theorem c3_second_fetch_cex :
    (loadRun ⟨[], ⟨"placeholder.jpg", some "real.jpg"⟩, [], []⟩
        [LoadEv.call, LoadEv.completeErr, LoadEv.call]).fetchLog
      = ["real.jpg", "real.jpg"]
    ∧ (loadRun ⟨[], ⟨"placeholder.jpg", some "real.jpg"⟩, [], []⟩
        [LoadEv.call, LoadEv.call]).fetchLog
      = ["real.jpg", "real.jpg"] := by
  constructor <;> decide

/-- C3 amended: when the first loadImage call actually fetches and that
    fetch completes successfully before the second call, the second call
    is a no-op (the resolved URL, now also the handle's src, is in the
    resolved-set) and exactly one network fetch occurs in total. -/
theorem c3_one_fetch_after_success (img : ImgElem) (L : List String)
    (h : includesStr L img.src = false) :
    loadRun ⟨L, img, [], []⟩ [LoadEv.call, LoadEv.completeOk, LoadEv.call]
      = loadRun ⟨L, img, [], []⟩ [LoadEv.call, LoadEv.completeOk]
    ∧ (loadRun ⟨L, img, [], []⟩ [LoadEv.call, LoadEv.completeOk]).fetchLog
        = [resolvedSrc img] := by
  have hstep1 : loadStep ⟨L, img, [], []⟩ LoadEv.call
      = ⟨L, img, [resolvedSrc img], [resolvedSrc img]⟩ := by
    simp [loadStep, h]
  have hstep2 : loadStep ⟨L, img, [resolvedSrc img], [resolvedSrc img]⟩
        LoadEv.completeOk
      = ⟨setAdd L (resolvedSrc img), ⟨resolvedSrc img, img.datasetSrc⟩, [],
          [resolvedSrc img]⟩ := by
    simp [loadStep]
  have hstep3 : loadStep ⟨setAdd L (resolvedSrc img),
        ⟨resolvedSrc img, img.datasetSrc⟩, [], [resolvedSrc img]⟩ LoadEv.call
      = ⟨setAdd L (resolvedSrc img), ⟨resolvedSrc img, img.datasetSrc⟩, [],
          [resolvedSrc img]⟩ := by
    simp [loadStep, includesStr_setAdd_self]
  constructor
  · simp only [loadRun]
    rw [hstep1, hstep2, hstep3]
  · simp only [loadRun]
    rw [hstep1, hstep2]

/-- C3 amended witness: a concrete handle with a data-src, starting from
    an empty resolved-set. -/
theorem c3_one_fetch_after_success_witness :
    loadRun ⟨[], ⟨"placeholder.jpg", some "real.jpg"⟩, [], []⟩
        [LoadEv.call, LoadEv.completeOk, LoadEv.call]
      = loadRun ⟨[], ⟨"placeholder.jpg", some "real.jpg"⟩, [], []⟩
        [LoadEv.call, LoadEv.completeOk]
    ∧ (loadRun ⟨[], ⟨"placeholder.jpg", some "real.jpg"⟩, [], []⟩
        [LoadEv.call, LoadEv.completeOk]).fetchLog
      = [resolvedSrc ⟨"placeholder.jpg", some "real.jpg"⟩] :=
  c3_one_fetch_after_success ⟨"placeholder.jpg", some "real.jpg"⟩ [] (by decide)

/-- C2 counterexample: the favorites state with list ["m1", "m2"] is
    reachable from the pristine store, yet toggling "m1" twice there
    yields the list ["m2", "m1"] and the persisted serialization of
    ["m2", "m1"]: neither the in-memory array nor the persisted content
    is restored (the identifier moves to the end). -/
theorem c2_toggle_twice_cex :
    favRun favInit [FavEv.construct, FavEv.toggle "m1", FavEv.toggle "m2"]
      = some ⟨["m1", "m2"], some (stringifyStrList ["m1", "m2"])⟩
    ∧ (toggleFavorite (toggleFavorite
          ⟨["m1", "m2"], some (stringifyStrList ["m1", "m2"])⟩ "m1") "m1").mem
        ≠ ["m1", "m2"]
    ∧ (toggleFavorite (toggleFavorite
          ⟨["m1", "m2"], some (stringifyStrList ["m1", "m2"])⟩ "m1") "m1").storage
        ≠ some (stringifyStrList ["m1", "m2"]) := by
  refine ⟨by decide, by decide, by decide⟩

/-- C2 amended: toggling the same identifier twice always restores its
    membership; it restores the exact in-memory list and persisted
    value whenever the identifier was not already a favorite; and the
    spec's example from the empty store holds: the first toggle persists
    the string of an array holding just the identifier and the second
    persists the string of the empty array. -/
theorem c2_toggle_twice (id : String) (l : List String) :
    (includesStr
        (toggleFavorite (toggleFavorite ⟨l, some (stringifyStrList l)⟩ id) id).mem
        id
      = includesStr l id)
    ∧ (includesStr l id = false →
        toggleFavorite (toggleFavorite ⟨l, some (stringifyStrList l)⟩ id) id
          = ⟨l, some (stringifyStrList l)⟩)
    ∧ (toggleFavorite favInit "m1").storage = some (stringifyStrList ["m1"])
    ∧ (toggleFavorite (toggleFavorite favInit "m1") "m1").storage
        = some (stringifyStrList [])
    ∧ stringifyStrList ["m1"] = "[\"m1\"]"
    ∧ stringifyStrList [] = "[]" := by
  refine ⟨?_, ?_, by decide, by decide, by decide, by decide⟩
  · by_cases h : includesStr l id = true
    · have h1 : toggleFavorite ⟨l, some (stringifyStrList l)⟩ id
          = ⟨removeAll l id, some (stringifyStrList (removeAll l id))⟩ := by
        simp [toggleFavorite, h]
      rw [h1]
      have h2 : toggleFavorite
            ⟨removeAll l id, some (stringifyStrList (removeAll l id))⟩ id
          = ⟨removeAll l id ++ [id],
              some (stringifyStrList (removeAll l id ++ [id]))⟩ := by
        simp [toggleFavorite, includesStr_removeAll_self]
      rw [h2, h]
      exact includesStr_append_self (removeAll l id) id
    · have h0 : includesStr l id = false := eq_false_of_ne_true h
      have h1 : toggleFavorite ⟨l, some (stringifyStrList l)⟩ id
          = ⟨l ++ [id], some (stringifyStrList (l ++ [id]))⟩ := by
        simp [toggleFavorite, h0]
      rw [h1]
      have h2 : toggleFavorite
            ⟨l ++ [id], some (stringifyStrList (l ++ [id]))⟩ id
          = ⟨removeAll (l ++ [id]) id,
              some (stringifyStrList (removeAll (l ++ [id]) id))⟩ := by
        simp [toggleFavorite, includesStr_append_self]
      rw [h2, h0]
      rw [removeAll_append, removeAll_of_not_includes l id h0]
      simp [removeAll]
      exact h0
  · intro h0
    have h1 : toggleFavorite ⟨l, some (stringifyStrList l)⟩ id
        = ⟨l ++ [id], some (stringifyStrList (l ++ [id]))⟩ := by
      simp [toggleFavorite, h0]
    rw [h1]
    have h2 : toggleFavorite
          ⟨l ++ [id], some (stringifyStrList (l ++ [id]))⟩ id
        = ⟨removeAll (l ++ [id]) id,
            some (stringifyStrList (removeAll (l ++ [id]) id))⟩ := by
      simp [toggleFavorite, includesStr_append_self]
    rw [h2]
    rw [removeAll_append, removeAll_of_not_includes l id h0]
    simp [removeAll]

/-- C2 amended witness: double toggle of an absent identifier restores
    the state exactly. -/
theorem c2_toggle_twice_witness :
    toggleFavorite (toggleFavorite
        ⟨["m2"], some (stringifyStrList ["m2"])⟩ "m1") "m1"
      = ⟨["m2"], some (stringifyStrList ["m2"])⟩ :=
  (c2_toggle_twice "m1" ["m2"]).2.1 (by decide)

/-- C6 counterexample: the stored value "{}" is not a JSON array of
    identifier strings, yet loading does not yield the empty favorites
    list: JSON.parse succeeds and the parsed object is returned as-is. -/
theorem c6_corrupted_load_cex :
    loadFavorites (some "{}") = Json.obj []
    ∧ Json.obj [] ≠ Json.arr []
    ∧ asStrList (Json.obj []) = none := by
  refine ⟨rfl, by simp, rfl⟩

/-- C6 amended: a stored value on which JSON parsing fails loads as the
    empty favorites array with the error caught, while a stored value
    that parses successfully loads as the parsed value, whatever its
    shape. -/
theorem c6_corrupted_load (s : String) :
    (jsonParse (getItemOr (some s)) = none → loadFavorites (some s) = Json.arr [])
    ∧ (∀ j, jsonParse (getItemOr (some s)) = some j → loadFavorites (some s) = j) := by
  constructor
  · intro h
    simp [loadFavorites, h]
  · intro j h
    simp [loadFavorites, h]

/-- C6 amended witness: a syntactically invalid stored value loads as
    the empty array. -/
theorem c6_corrupted_load_witness :
    loadFavorites (some "oops") = Json.arr [] :=
  (c6_corrupted_load "oops").1 rfl

theorem bs_ne_quote : backslashChar ≠ quoteChar := by decide

theorem isWs_quote : isWs quoteChar = false := by decide

theorem isWs_lbrack : isWs '[' = false := by decide

theorem isWs_rbrack : isWs ']' = false := by decide

theorem isWs_comma : isWs ',' = false := by decide

theorem lbrack_ne_quote : ('[' : Char) ≠ quoteChar := by decide

theorem quote_ne_rbrack : quoteChar ≠ ']' := by decide

theorem quote_ne_comma : quoteChar ≠ ',' := by decide

theorem rbrack_ne_comma : (']' : Char) ≠ ',' := by decide

theorem comma_ne_rbrack : (',' : Char) ≠ ']' := by decide

theorem escDecode_quote : escDecode quoteChar = some quoteChar := by decide

theorem escDecode_bs : escDecode backslashChar = some backslashChar := by decide

theorem escDecode_n : escDecode 'n' = some newlineChar := by decide

theorem escDecode_t : escDecode 't' = some tabChar := by decide

theorem escDecode_r : escDecode 'r' = some crChar := by decide

theorem strDataMk (x : List Char) : (String.mk x).data = x := rfl

theorem parseStr_quote (cs : List Char) :
    parseStrChars (quoteChar :: cs) = some ([], cs) := by
  conv_lhs => rw [parseStrChars.eq_def]
  simp

theorem parseStr_esc (e d : Char) (cs s2 rest : List Char)
    (hd : escDecode e = some d) (hrec : parseStrChars cs = some (s2, rest)) :
    parseStrChars (backslashChar :: e :: cs) = some (d :: s2, rest) := by
  conv_lhs => rw [parseStrChars.eq_def]
  simp [bs_ne_quote, hd, hrec]

theorem parseStr_plain (c : Char) (cs s2 rest : List Char)
    (h1 : c ≠ quoteChar) (h2 : c ≠ backslashChar)
    (hrec : parseStrChars cs = some (s2, rest)) :
    parseStrChars (c :: cs) = some (c :: s2, rest) := by
  conv_lhs => rw [parseStrChars.eq_def]
  simp [h1, h2, hrec]

theorem parseStrChars_encode (s : List Char) (rest : List Char) :
    parseStrChars (encodeChars s ++ quoteChar :: rest) = some (s, rest) := by
  induction s with
  | nil =>
    simp only [encodeChars, List.nil_append]
    exact parseStr_quote rest
  | cons c cs ih =>
    by_cases h1 : c = quoteChar
    · subst h1
      have he : escChar quoteChar = [backslashChar, quoteChar] := by decide
      simp only [encodeChars, he, List.cons_append, List.append_assoc]
      exact parseStr_esc quoteChar quoteChar _ _ _ escDecode_quote ih
    · by_cases h2 : c = backslashChar
      · subst h2
        have he : escChar backslashChar = [backslashChar, backslashChar] := by
          decide
        simp only [encodeChars, he, List.cons_append, List.append_assoc]
        exact parseStr_esc backslashChar backslashChar _ _ _ escDecode_bs ih
      · by_cases h3 : c = newlineChar
        · subst h3
          have he : escChar newlineChar = [backslashChar, 'n'] := by decide
          simp only [encodeChars, he, List.cons_append, List.append_assoc]
          exact parseStr_esc 'n' newlineChar _ _ _ escDecode_n ih
        · by_cases h4 : c = tabChar
          · subst h4
            have he : escChar tabChar = [backslashChar, 't'] := by decide
            simp only [encodeChars, he, List.cons_append, List.append_assoc]
            exact parseStr_esc 't' tabChar _ _ _ escDecode_t ih
          · by_cases h5 : c = crChar
            · subst h5
              have he : escChar crChar = [backslashChar, 'r'] := by decide
              simp only [encodeChars, he, List.cons_append, List.append_assoc]
              exact parseStr_esc 'r' crChar _ _ _ escDecode_r ih
            · have he : escChar c = [c] := by
                simp [escChar, h1, h2, h3, h4, h5]
              simp only [encodeChars, he, List.cons_append, List.append_assoc]
              exact parseStr_plain c _ _ _ h1 h2 ih

theorem parseVal_quoted (f : Nat) (s : List Char) (rest : List Char) :
    parseVal (f + 1) (quoteStr s ++ rest) = some (Json.str (String.mk s), rest) := by
  show parseVal (Nat.succ f) (quoteStr s ++ rest) = _
  conv_lhs => rw [parseVal.eq_def]
  simp [quoteStr, skipWs, isWs_quote, parseStrChars_encode, List.append_assoc]

theorem parseItems_encoded (l : List String) : ∀ (s : String) (f : Nat) (rest : List Char),
    l.length + 2 ≤ f →
    parseItems f (joinItems ((s :: l).map (fun t => quoteStr t.data)) ++ ']' :: rest)
      = some ((s :: l).map Json.str, rest) := by
  induction l with
  | nil =>
    intro s f rest hf
    obtain ⟨f1, rfl⟩ : ∃ k, f = k + 1 := ⟨f - 1, by omega⟩
    obtain ⟨f2, rfl⟩ : ∃ k, f1 = k + 1 := ⟨f1 - 1, by omega⟩
    show parseItems (Nat.succ (f2 + 1)) _ = _
    conv_lhs => rw [parseItems.eq_def]
    simp only [List.map, joinItems]
    rw [parseVal_quoted f2 s.data (']' :: rest)]
    simp [skipWs, isWs_rbrack, rbrack_ne_comma, strDataMk, strMkData]
  | cons t l2 ih =>
    intro s f rest hf
    obtain ⟨f1, rfl⟩ : ∃ k, f = k + 1 := ⟨f - 1, by omega⟩
    obtain ⟨f2, rfl⟩ : ∃ k, f1 = k + 1 := ⟨f1 - 1, by omega⟩
    show parseItems (Nat.succ (f2 + 1)) _ = _
    conv_lhs => rw [parseItems.eq_def]
    simp only [List.map, joinItems, List.append_assoc, List.cons_append]
    rw [parseVal_quoted f2 s.data]
    have hih := ih t (f2 + 1) rest (by simp at hf; omega)
    simp only [List.map] at hih
    simp [skipWs, isWs_comma, comma_ne_rbrack, hih, strMkData]

theorem joinItems_len (l : List String) : ∀ s : String,
    l.length + 1 ≤ (joinItems ((s :: l).map (fun t => quoteStr t.data))).length := by
  induction l with
  | nil =>
    intro s
    simp [joinItems, quoteStr]
  | cons t l2 ih =>
    intro s
    have h := ih t
    simp only [List.map, joinItems] at h ⊢
    rw [List.length_append]
    simp only [List.length_cons]
    omega

theorem joinItems_head (s : String) (l : List String) :
    ∃ tail, joinItems ((s :: l).map (fun t => quoteStr t.data)) = quoteChar :: tail := by
  cases l with
  | nil => exact ⟨encodeChars s.data ++ [quoteChar], by simp [joinItems, quoteStr]⟩
  | cons t l2 =>
    refine ⟨(encodeChars s.data ++ [quoteChar])
        ++ ',' :: joinItems ((t :: l2).map (fun u => quoteStr u.data)), ?_⟩
    simp [joinItems, quoteStr]

theorem parseVal_strArray (s : String) (l : List String) (f : Nat) (rest : List Char)
    (hf : l.length + 2 ≤ f) :
    parseVal (f + 1)
        ('[' :: (joinItems ((s :: l).map (fun t => quoteStr t.data)) ++ ']' :: rest))
      = some (Json.arr ((s :: l).map Json.str), rest) := by
  obtain ⟨tail, htail⟩ := joinItems_head s l
  have hji : joinItems ((s :: l).map (fun t => quoteStr t.data)) ++ ']' :: rest
      = quoteChar :: (tail ++ ']' :: rest) := by
    rw [htail]
    simp
  show parseVal (Nat.succ f) _ = _
  conv_lhs => rw [parseVal.eq_def]
  rw [hji]
  simp [skipWs, isWs_lbrack, lbrack_ne_quote, isWs_quote, quote_ne_rbrack]
  rw [← hji, parseItems_encoded l s f rest hf]
  simp

theorem jsonParse_stringify (l : List String) :
    jsonParse (stringifyStrList l) = some (Json.arr (l.map Json.str)) := by
  cases l with
  | nil => rfl
  | cons s l2 =>
    unfold jsonParse stringifyStrList
    simp only [strDataMk, List.cons_append]
    rw [parseVal_strArray s l2
      ('[' :: (joinItems ((s :: l2).map (fun t => quoteStr t.data)) ++ [']'])).length
      []
      (by
        have h := joinItems_len l2 s
        simp only [List.length_cons, List.length_append, List.length_nil]
        omega)]
    simp [skipWs]

theorem strListOf_map (l : List String) : strListOf (l.map Json.str) = some l := by
  induction l with
  | nil => rfl
  | cons s l2 ih => simp [strListOf, ih]

theorem stringify_ne_empty (l : List String) : stringifyStrList l ≠ "" := by
  unfold stringifyStrList
  exact strMkConsNeEmpty _ _

theorem loadFavorites_saved (l : List String) :
    loadFavorites (some (stringifyStrList l)) = Json.arr (l.map Json.str) := by
  have hg : getItemOr (some (stringifyStrList l)) = stringifyStrList l := by
    unfold getItemOr
    simp [stringify_ne_empty l]
  unfold loadFavorites
  rw [hg, jsonParse_stringify]
  rfl

theorem asStrList_saved (l : List String) :
    asStrList (loadFavorites (some (stringifyStrList l))) = some l := by
  rw [loadFavorites_saved]
  simp [asStrList, strListOf_map]

theorem toggleFavorite_inv (s : FavSys) (id : String) (h : FavInv s) :
    FavInv (toggleFavorite s id) := by
  obtain ⟨h1, _⟩ := h
  unfold toggleFavorite
  by_cases hc : includesStr s.mem id = true
  · simp only [hc, if_true]
    exact ⟨nodup_removeAll s.mem id h1,
      Or.inr ⟨removeAll s.mem id, nodup_removeAll s.mem id h1, rfl⟩⟩
  · have hc2 := eq_false_of_ne_true hc
    simp only [hc2, Bool.false_eq_true, if_false]
    exact ⟨nodup_append_singleton s.mem id hc2 h1,
      Or.inr ⟨s.mem ++ [id], nodup_append_singleton s.mem id hc2 h1, rfl⟩⟩

theorem favStep_inv (s s2 : FavSys) (e : FavEv) (h : FavInv s)
    (hs : favStep s e = some s2) : FavInv s2 := by
  cases e with
  | construct =>
    rcases h.2 with hn | ⟨l, hl, hst⟩
    · simp only [favStep] at hs
      rw [hn] at hs
      rw [show asStrList (loadFavorites none) = some [] from rfl] at hs
      simp at hs
      rw [← hs]
      exact ⟨List.nodup_nil, Or.inl rfl⟩
    · simp only [favStep] at hs
      rw [hst] at hs
      rw [asStrList_saved] at hs
      simp at hs
      rw [← hs]
      exact ⟨hl, Or.inr ⟨l, hl, rfl⟩⟩
  | toggle id =>
    simp only [favStep, Option.some.injEq] at hs
    rw [← hs]
    exact toggleFavorite_inv s id h

theorem favRun_inv (evs : List FavEv) : ∀ s s2 : FavSys, FavInv s →
    favRun s evs = some s2 → FavInv s2 := by
  induction evs with
  | nil =>
    intro s s2 h hr
    simp only [favRun, Option.some.injEq] at hr
    rw [← hr]
    exact h
  | cons e evs ih =>
    intro s s2 h hr
    simp only [favRun] at hr
    cases heq : favStep s e with
    | none => rw [heq] at hr; simp at hr
    | some s3 =>
      rw [heq] at hr
      simp only at hr
      exact ih s3 s2 (favStep_inv s s3 e h heq) hr

/-- C5: every favorites state reachable from the pristine store by page
    loads (which re-read storage) and toggleFavorite operations has a
    duplicate-free in-memory list, and the persisted value denotes a
    duplicate-free string array. -/
theorem c5_no_duplicates (evs : List FavEv) (s : FavSys)
    (h : favRun favInit evs = some s) :
    s.mem.Nodup ∧ ∃ l, asStrList (loadFavorites s.storage) = some l ∧ l.Nodup := by
  have hinv : FavInv s := favRun_inv evs favInit s ⟨List.nodup_nil, Or.inl rfl⟩ h
  refine ⟨hinv.1, ?_⟩
  rcases hinv.2 with hn | ⟨l, hl, hst⟩
  · rw [hn]
    exact ⟨[], rfl, List.nodup_nil⟩
  · rw [hst]
    exact ⟨l, asStrList_saved l, hl⟩

/-- C5 witness: the state after a page load and one toggle. -/
theorem c5_no_duplicates_witness :
    (⟨["m1"], some (stringifyStrList ["m1"])⟩ : FavSys).mem.Nodup
    ∧ ∃ l, asStrList (loadFavorites
          (⟨["m1"], some (stringifyStrList ["m1"])⟩ : FavSys).storage) = some l
        ∧ l.Nodup :=
  c5_no_duplicates [FavEv.construct, FavEv.toggle "m1"]
    ⟨["m1"], some (stringifyStrList ["m1"])⟩ (by decide)
